import Mathlib

/-!
Shallow embedding of the di-rally event-driven command engine.

The embedded code:
* src/core/types.ts          — event, context, command, hook and builder shapes
* src/core/command-builder.ts — ShadowTransactionCommandBuilder
* src/services/event-collector.ts — FifoEventCollector
* src/unnamed/part_000       — DefaultTransactionManager (mediator)
* src/commands/match-store-command.ts — MatchStoreToProductCommand, AssignRepCommand

Effectful TypeScript (async functions that mutate the shared collector,
write to the console, throw, and draw fresh random identifiers) is embedded
as an explicit state-and-exception monad M over an EngineState record.
Sequential await-chains become M.bind chains; a thrown Error becomes
Res.err carrying the message string.
-/

/-- Metadata carried by every event (src/core/types.ts, EventMetadata).
The Date timestamp is modelled as a Nat tick. -/
structure EventMetadata where
  correlationId : String
  causationId : String
  timestamp : Nat
  source : String
deriving DecidableEq, Repr

/-- A product inside a MATCH_STORE payload (src/commands/match-store-command.ts).
JS numbers are modelled as rationals. -/
structure Product where
  id : String
  price : Rat
  estimatedVolume : Rat
deriving DecidableEq, Repr

/-- The payload shapes actually used by the repository's commands, plus a raw
constructor for opaque payloads (TS uses payload: any). -/
inductive PayloadData where
  | storeProducts (storeId : String) (productList : List Product)
  | storeMatched (matchId : String) (storeId : String) (products : List String)
      (potentialRevenue : Rat) (status : String)
  | matchAssign (matchId : String) (storeId : String) (potentialRevenue : Option Rat)
  | repAssigned (matchId : Option String) (storeId : Option String) (repId : String)
      (estimatedCommission : Rat) (expectedFollowupDate : Nat)
  | raw (s : String)
deriving DecidableEq, Repr

/-- TransactionEvent (src/core/types.ts). -/
structure TransactionEvent where
  id : String
  type : String
  payload : PayloadData
  metadata : EventMetadata
deriving DecidableEq, Repr

/-- The mutable world visible to the engine: the FifoEventCollector's internal
events array, the per-context scratch state object, the console, a supply of
fresh identifiers standing for Math.random, and the clock standing for Date. -/
structure EngineState where
  collected : List TransactionEvent
  scratch : List (String × String)
  log : List String
  fresh : Nat
  now : Nat
deriving DecidableEq, Repr

/-- Result of running one async computation to completion: either it resolves
or it rejects with a thrown error message; both leave a final world. -/
inductive Res (α : Type) where
  | ok : α → EngineState → Res α
  | err : String → EngineState → Res α
deriving DecidableEq, Repr

/-- The final world of a completed computation, whether it resolved or threw. -/
def Res.state : Res α → EngineState
  | Res.ok _ s => s
  | Res.err _ s => s

/-- True when the computation resolved without throwing. -/
def Res.isOk : Res α → Bool
  | Res.ok _ _ => true
  | Res.err _ _ => false

/-- An async computation: a deterministic world transformer that may throw.
Cooperative single-threaded scheduling means one await-chain runs atomically
as a function of the starting world. -/
def M (α : Type) : Type := EngineState → Res α

/-- Resolve immediately with a value. -/
def M.pure (a : α) : M α := fun s => Res.ok a s

/-- Await the first computation; on resolution feed its value to the
continuation, on rejection propagate the error without running it. -/
def M.bind (x : M α) (f : α → M β) : M β := fun s =>
  match x s with
  | Res.ok a s1 => f a s1
  | Res.err e s1 => Res.err e s1

/-- Throw an Error with the given message. -/
def M.throw (e : String) : M α := fun s => Res.err e s

/-- Model of console.log: appends the message to the console log. -/
def consoleLog (m : String) : M Unit := fun s =>
  Res.ok () { s with log := s.log ++ [m] }

/-- Model of console.error: appends the message to the console log. -/
def consoleError (m : String) : M Unit := fun s =>
  Res.ok () { s with log := s.log ++ [m] }

/-- Model of Math.random().toString(36).substring(2, 9): draws the next value
from the fresh-identifier supply. -/
def genFresh : M Nat := fun s => Res.ok s.fresh { s with fresh := s.fresh + 1 }

/-- Rendering of a drawn fresh value as an identifier string. -/
def randomId (n : Nat) : String := "r" ++ toString n

/-- Model of new Date() / Date.now(): reads the clock. -/
def currentTime : M Nat := fun s => Res.ok s.now s

namespace FifoEventCollector

/-- FifoEventCollector.addEvent (src/services/event-collector.ts): pushes the
event onto the tail of the internal array and logs. -/
def addEvent (event : TransactionEvent) : M Unit := fun s =>
  Res.ok () { s with
    collected := s.collected ++ [event],
    log := s.log ++ ["Collected side effect: " ++ event.type] }

/-- FifoEventCollector.getEvents: returns a copy of the internal array, in
insertion order, leaving the collector untouched. -/
def getEvents : M (List TransactionEvent) := fun s => Res.ok s.collected s

/-- FifoEventCollector.clear: empties the internal array and logs. -/
def clear : M Unit := fun s =>
  Res.ok () { s with collected := [], log := s.log ++ ["Event collector cleared"] }

end FifoEventCollector

/-- CommandContext (src/core/types.ts): the triggering event. Its state object
and its eventCollector reference are the scratch and collected fields of the
EngineState, since both are shared mutable state. -/
structure CommandContext where
  event : TransactionEvent

/-- TransactionCommand (src/core/types.ts): a command identifier plus an async
invoke over a context. -/
structure TransactionCommand where
  commandId : String
  invoke : CommandContext → M Unit

/-- PreInvokeHook (src/core/types.ts): async function of the command being
decorated and the context. -/
abbrev PreInvokeHook : Type := TransactionCommand → CommandContext → M Unit

/-- PostInvokeHook (src/core/types.ts): same shape as PreInvokeHook. -/
abbrev PostInvokeHook : Type := PreInvokeHook

/-- Lookup in a JS Map modelled as an association list in insertion order
(Map.prototype.get). -/
def mapGet (m : List (String × α)) (k : String) : Option α :=
  match m with
  | [] => none
  | (k1, v) :: rest => if k1 = k then some v else mapGet rest k

/-- Update in a JS Map modelled as an association list (Map.prototype.set):
an existing key is overwritten in place, a new key is appended at the end. -/
def mapSet (m : List (String × α)) (k : String) (v : α) : List (String × α) :=
  match m with
  | [] => [(k, v)]
  | (k1, v1) :: rest => if k1 = k then (k, v) :: rest else (k1, v1) :: mapSet rest k v

/-- ShadowTransactionCommandBuilder (src/core/command-builder.ts): two ordered
hook lists and the factory map keyed by event type. -/
structure ShadowTransactionCommandBuilder where
  preInvokeHooks : List PreInvokeHook
  postInvokeHooks : List PostInvokeHook
  commandFactories : List (String × (TransactionEvent → TransactionCommand))

namespace ShadowTransactionCommandBuilder

/-- The freshly constructed builder: no hooks, no factories. -/
def empty : ShadowTransactionCommandBuilder :=
  { preInvokeHooks := [], postInvokeHooks := [], commandFactories := [] }

/-- registerCommandFactory: this.commandFactories.set(eventType, factory).
TS mutates the receiver; the embedding returns the updated builder. -/
def registerCommandFactory (b : ShadowTransactionCommandBuilder) (eventType : String)
    (factory : TransactionEvent → TransactionCommand) : ShadowTransactionCommandBuilder :=
  { b with commandFactories := mapSet b.commandFactories eventType factory }

/-- The for-loop over this.preInvokeHooks (or postInvokeHooks) inside the
decorated invoke: each hook is applied to the wrapped base command and the
context, awaited to completion, before the next begins. -/
def runHooks (hooks : List PreInvokeHook) (command : TransactionCommand)
    (context : CommandContext) : M Unit :=
  match hooks with
  | [] => M.pure ()
  | h :: rest => M.bind (h command context) (fun _ => runHooks rest command context)

/-- wrapWithHooks: returns the decorated command sharing the wrapped command's
commandId, whose invoke awaits every pre-hook in order, then the wrapped
command's own invoke, then every post-hook in order. -/
def wrapWithHooks (b : ShadowTransactionCommandBuilder)
    (command : TransactionCommand) : TransactionCommand :=
  { commandId := command.commandId,
    invoke := fun context =>
      M.bind (runHooks b.preInvokeHooks command context) (fun _ =>
        M.bind (command.invoke context) (fun _ =>
          runHooks b.postInvokeHooks command context)) }

/-- buildCommand: looks up the factory for event.type, throws the
no-factory-registered Error when absent, otherwise builds the base command
and wraps it. The synchronous throw is embedded as Except.error. -/
def buildCommand (b : ShadowTransactionCommandBuilder) (event : TransactionEvent) :
    Except String TransactionCommand :=
  match mapGet b.commandFactories event.type with
  | none => Except.error ("No command factory registered for event type: " ++ event.type)
  | some factory => Except.ok (b.wrapWithHooks (factory event))

/-- withPreInvokeHook: constructs a new empty builder, re-registers every
factory of the receiver into it in iteration order, and installs the
receiver's hook lists with the new hook appended to the pre list. -/
def withPreInvokeHook (b : ShadowTransactionCommandBuilder) (hook : PreInvokeHook) :
    ShadowTransactionCommandBuilder :=
  let newBuilder :=
    b.commandFactories.foldl
      (fun nb p => nb.registerCommandFactory p.1 p.2) empty
  { newBuilder with
    preInvokeHooks := b.preInvokeHooks ++ [hook],
    postInvokeHooks := b.postInvokeHooks }

/-- withPostInvokeHook: same as withPreInvokeHook with the new hook appended
to the post list instead. -/
def withPostInvokeHook (b : ShadowTransactionCommandBuilder) (hook : PostInvokeHook) :
    ShadowTransactionCommandBuilder :=
  let newBuilder :=
    b.commandFactories.foldl
      (fun nb p => nb.registerCommandFactory p.1 p.2) empty
  { newBuilder with
    preInvokeHooks := b.preInvokeHooks,
    postInvokeHooks := b.postInvokeHooks ++ [hook] }

/-- Well-formedness maintained by every builder reachable through the public
API: the factory map never holds two entries for the same event type (a JS
Map cannot). -/
def WellFormed (b : ShadowTransactionCommandBuilder) : Prop :=
  (b.commandFactories.map Prod.fst).Nodup

end ShadowTransactionCommandBuilder

/-- DefaultTransactionManager (src/unnamed/part_000): holds the injected
builder; the injected collector is the world's collected field. -/
structure DefaultTransactionManager where
  commandBuilder : ShadowTransactionCommandBuilder

namespace DefaultTransactionManager

/-- handleError: console.error diagnostics, nothing else; always resolves. -/
def handleError (_mgr : DefaultTransactionManager) (event : TransactionEvent)
    (error : String) : M Unit :=
  consoleError ("Error processing event " ++ event.type ++ ": " ++ error)

/-- processEvent: builds the command (routing a synchronous build failure to
handleError without constructing a context), otherwise constructs a fresh
context with an empty state object and awaits the decorated invoke, routing
any rejection to handleError. The try-catch swallows every failure. -/
def processEvent (mgr : DefaultTransactionManager) (event : TransactionEvent) :
    M Unit := fun s =>
  match mgr.commandBuilder.buildCommand event with
  | Except.error e => mgr.handleError event e s
  | Except.ok command =>
    let context : CommandContext := { event := event }
    match command.invoke context { s with scratch := [] } with
    | Res.ok _ s1 => Res.ok () s1
    | Res.err e s1 => mgr.handleError event e s1

end DefaultTransactionManager

/-- MatchStoreToProductCommand (src/commands/match-store-command.ts). The
constructor captures the event; commandId is the match-store tag plus the
Math.random draw made at construction time, supplied here as rand. On a
payload without a product list the TS field accesses throw a TypeError. -/
def MatchStoreToProductCommand (rand : String) (event : TransactionEvent) :
    TransactionCommand :=
  { commandId := "match-store-" ++ rand,
    invoke := fun _context =>
      match event.payload with
      | PayloadData.storeProducts storeId productList =>
        M.bind (consoleLog ("Matching store " ++ storeId ++ " to products")) (fun _ =>
        M.bind (consoleLog ("Products to match: " ++ toString productList.length)) (fun _ =>
        M.bind genFresh (fun r1 =>
        let matchId := "MATCH-" ++ randomId r1
        let potentialRevenue :=
          productList.foldl (fun sum p => sum + p.price * p.estimatedVolume) 0
        M.bind (consoleLog ("Potential revenue from match computed")) (fun _ =>
        M.bind genFresh (fun r2 =>
        M.bind currentTime (fun t =>
        M.bind (FifoEventCollector.addEvent
          { id := randomId r2,
            type := "STORE_MATCHED",
            payload := PayloadData.storeMatched matchId storeId
              (productList.map Product.id) potentialRevenue ("MATCHED"),
            metadata :=
              { correlationId := event.metadata.correlationId,
                causationId := event.id,
                timestamp := t,
                source := "matching-service" } }) (fun _ =>
        consoleLog ("Store " ++ storeId ++ " matched successfully"))))))))
      | _ => M.throw ("TypeError: payload has no productList") }

/-- Duck-typed read of payload.matchId: a JS property read yields the value
when the payload shape has the field and undefined (none) otherwise, never
throwing. -/
def PayloadData.matchIdField : PayloadData → Option String
  | PayloadData.storeMatched matchId _ _ _ _ => some matchId
  | PayloadData.matchAssign matchId _ _ => some matchId
  | PayloadData.repAssigned matchId _ _ _ _ => matchId
  | _ => none

/-- Duck-typed read of payload.storeId: defined on every payload shape that
carries a storeId field, undefined (none) otherwise. -/
def PayloadData.storeIdField : PayloadData → Option String
  | PayloadData.storeProducts storeId _ => some storeId
  | PayloadData.storeMatched _ storeId _ _ _ => some storeId
  | PayloadData.matchAssign _ storeId _ => some storeId
  | PayloadData.repAssigned _ storeId _ _ _ => storeId
  | _ => none

/-- Duck-typed read of payload.potentialRevenue. -/
def PayloadData.potentialRevenueField : PayloadData → Option Rat
  | PayloadData.storeMatched _ _ _ potentialRevenue _ => some potentialRevenue
  | PayloadData.matchAssign _ _ potentialRevenue => potentialRevenue
  | _ => none

/-- Rendering of a possibly-undefined string value inside a JS template
literal: undefined prints as the word undefined. -/
def jsString : Option String → String
  | some s => s
  | none => "undefined"

/-- AssignRepCommand (src/commands/match-store-command.ts). JS property reads
on a payload without the field yield undefined and never throw, so the
command resolves and appends its REP_ASSIGNED event for every payload shape,
carrying the possibly-undefined matchId and storeId through unchanged. The
JS expression potentialRevenue || 1000 yields 1000 both for an absent field
and for a zero value, which the embedding reproduces. -/
def AssignRepCommand (rand : String) (event : TransactionEvent) :
    TransactionCommand :=
  { commandId := "assign-rep-" ++ rand,
    invoke := fun _context =>
      let matchId := event.payload.matchIdField
      let storeId := event.payload.storeIdField
      let potentialRevenue := event.payload.potentialRevenueField
      M.bind (consoleLog ("Finding a rep for match " ++ jsString matchId)) (fun _ =>
      M.bind genFresh (fun r1 =>
      let repId := "REP-" ++ randomId r1
      let commissionRate : Rat := 15 / 100
      let revenueBase : Rat :=
        match potentialRevenue with
        | some v => if v = 0 then 1000 else v
        | none => 1000
      let estimatedCommission := revenueBase * commissionRate
      M.bind (consoleLog ("Estimated commission for rep computed")) (fun _ =>
      M.bind genFresh (fun r2 =>
      M.bind currentTime (fun t =>
      M.bind (FifoEventCollector.addEvent
        { id := randomId r2,
          type := "REP_ASSIGNED",
          payload := PayloadData.repAssigned matchId storeId repId
            estimatedCommission (t + 1000 * 60 * 60 * 24 * 3),
          metadata :=
            { correlationId := event.metadata.correlationId,
              causationId := event.id,
              timestamp := t,
              source := "rep-assignment-service" } }) (fun _ =>
      consoleLog ("Rep " ++ repId ++ " assigned to match " ++ jsString matchId))))))) }

/-- A hook that only writes a marker to the console; used to observe hook
execution order. -/
def markerHook (tag : String) : PreInvokeHook := fun _ _ => consoleLog tag

/-- A hook that invokes its first argument; if the first argument is the
undecorated base command this runs the core logic with no hooks. -/
def invokeArgHook : PreInvokeHook := fun c context => c.invoke context

/-- A hook that always throws. -/
def throwingHook (msg : String) : PreInvokeHook := fun _ _ => M.throw msg

/-- An initial quiescent world. -/
def s0 : EngineState :=
  { collected := [], scratch := [], log := [], fresh := 0, now := 0 }

/-- Metadata of the test events. -/
def meta0 : EventMetadata :=
  { correlationId := "c1", causationId := "c0", timestamp := 0, source := "test" }

/-- A PING test event. -/
def pingEvent : TransactionEvent :=
  { id := "e1", type := "PING", payload := PayloadData.raw ("p"), metadata := meta0 }

/-- The side-effect event published by the test commands. -/
def pongEvent : TransactionEvent :=
  { id := "se1", type := "PONG", payload := PayloadData.raw ("q"),
    metadata := { correlationId := "c1", causationId := "e1", timestamp := 0, source := "test" } }

/-- A command that publishes pongEvent and resolves. -/
def pingCommand : TransactionCommand :=
  { commandId := "ping-cmd", invoke := fun _ => FifoEventCollector.addEvent pongEvent }

/-- A command that publishes pongEvent and then throws: its side effect lands
in the collector before the failure. -/
def boomCommand : TransactionCommand :=
  { commandId := "boom-cmd",
    invoke := fun _ =>
      M.bind (FifoEventCollector.addEvent pongEvent) (fun _ => M.throw ("boom")) }

/-- A builder with only the PING factory registered. -/
def pingBuilder : ShadowTransactionCommandBuilder :=
  ShadowTransactionCommandBuilder.empty.registerCommandFactory ("PING") (fun _ => pingCommand)

/-- A builder with only the BOOM factory registered. -/
def boomBuilder : ShadowTransactionCommandBuilder :=
  ShadowTransactionCommandBuilder.empty.registerCommandFactory ("BOOM") (fun _ => boomCommand)

/-- A BOOM test event. -/
def boomEvent : TransactionEvent :=
  { id := "e2", type := "BOOM", payload := PayloadData.raw ("b"), metadata := meta0 }

/-- A mediator over the boom builder. -/
def boomManager : DefaultTransactionManager := { commandBuilder := boomBuilder }

/-- A mediator whose builder has no factories at all. -/
def emptyManager : DefaultTransactionManager :=
  { commandBuilder := ShadowTransactionCommandBuilder.empty }

/-- A MATCH_STORE test event with one product. -/
def matchEvent : TransactionEvent :=
  { id := "e3", type := "MATCH_STORE",
    payload := PayloadData.storeProducts ("store1") [],
    metadata := meta0 }

/-- An ASSIGN_REP test event. -/
def assignEvent : TransactionEvent :=
  { id := "e4", type := "ASSIGN_REP",
    payload := PayloadData.matchAssign ("m1") ("store1") (some 200),
    metadata := meta0 }

/-- A builder whose single pre-hook throws, with the PING factory registered. -/
def throwBuilder : ShadowTransactionCommandBuilder :=
  pingBuilder.withPreInvokeHook (throwingHook ("denied"))

/-- A mediator over the throwing-hook builder. -/
def throwManager : DefaultTransactionManager := { commandBuilder := throwBuilder }

/-- The STORE_MATCHED side-effect event the match command publishes when run
on matchEvent from the quiescent world. -/
def matchSideEffect : TransactionEvent :=
  { id := randomId 1, type := "STORE_MATCHED",
    payload := PayloadData.storeMatched ("MATCH-" ++ randomId 0) ("store1")
      [] 0 ("MATCHED"),
    metadata := { correlationId := "c1", causationId := "e3", timestamp := 0,
                  source := "matching-service" } }

namespace ShadowTransactionCommandBuilder

theorem runHooks_cons (h : PreInvokeHook) (rest : List PreInvokeHook)
    (c : TransactionCommand) (context : CommandContext) (s : EngineState) :
    runHooks (h :: rest) c context s =
      M.bind (h c context) (fun _ => runHooks rest c context) s := rfl

theorem runHooks_append (hs1 hs2 : List PreInvokeHook) (c : TransactionCommand)
    (context : CommandContext) (s : EngineState) :
    runHooks (hs1 ++ hs2) c context s =
      M.bind (runHooks hs1 c context) (fun _ => runHooks hs2 c context) s := by
  induction hs1 generalizing s with
  | nil => simp [runHooks, M.bind, M.pure]
  | cons h t ih =>
    simp only [List.cons_append, runHooks, M.bind]
    cases hr : h c context s with
    | ok a s1 => exact ih s1
    | err e s1 => rfl

theorem runHooks_prefix_err (hs1 hs2 : List PreInvokeHook) (c : TransactionCommand)
    (context : CommandContext) (s s1 : EngineState) (msg : String)
    (h : runHooks hs1 c context s = Res.err msg s1) :
    runHooks (hs1 ++ hs2) c context s = Res.err msg s1 := by
  rw [runHooks_append]
  simp only [M.bind, h]

theorem wrap_invoke_eq (b : ShadowTransactionCommandBuilder) (c : TransactionCommand)
    (context : CommandContext) (s : EngineState) :
    (b.wrapWithHooks c).invoke context s =
      M.bind (runHooks b.preInvokeHooks c context)
        (fun _ => M.bind (c.invoke context)
          (fun _ => runHooks b.postInvokeHooks c context)) s := rfl

theorem wrap_invoke_pre_err (b : ShadowTransactionCommandBuilder)
    (c : TransactionCommand) (context : CommandContext) (s s1 : EngineState)
    (msg : String) (h : runHooks b.preInvokeHooks c context s = Res.err msg s1) :
    (b.wrapWithHooks c).invoke context s = Res.err msg s1 := by
  rw [wrap_invoke_eq]
  simp only [M.bind, h]

theorem wrap_invoke_core_err (b : ShadowTransactionCommandBuilder)
    (c : TransactionCommand) (context : CommandContext) (s s1 s2 : EngineState)
    (u : Unit) (msg : String)
    (hpre : runHooks b.preInvokeHooks c context s = Res.ok u s1)
    (hcore : c.invoke context s1 = Res.err msg s2) :
    (b.wrapWithHooks c).invoke context s = Res.err msg s2 := by
  rw [wrap_invoke_eq]
  simp only [M.bind, hpre, hcore]

theorem wrap_invoke_post_err (b : ShadowTransactionCommandBuilder)
    (c : TransactionCommand) (context : CommandContext) (s s1 s2 s3 : EngineState)
    (u v : Unit) (msg : String)
    (hpre : runHooks b.preInvokeHooks c context s = Res.ok u s1)
    (hcore : c.invoke context s1 = Res.ok v s2)
    (hpost : runHooks b.postInvokeHooks c context s2 = Res.err msg s3) :
    (b.wrapWithHooks c).invoke context s = Res.err msg s3 := by
  rw [wrap_invoke_eq]
  simp only [M.bind, hpre, hcore, hpost]

theorem buildCommand_some (b : ShadowTransactionCommandBuilder) (e : TransactionEvent)
    (f : TransactionEvent → TransactionCommand)
    (hf : mapGet b.commandFactories e.type = some f) :
    b.buildCommand e = Except.ok (b.wrapWithHooks (f e)) := by
  unfold buildCommand
  rw [hf]

theorem buildCommand_none (b : ShadowTransactionCommandBuilder) (e : TransactionEvent)
    (hf : mapGet b.commandFactories e.type = none) :
    b.buildCommand e =
      Except.error ("No command factory registered for event type: " ++ e.type) := by
  unfold buildCommand
  rw [hf]

end ShadowTransactionCommandBuilder

theorem mapGet_mapSet_self (m : List (String × α)) (k : String) (v : α) :
    mapGet (mapSet m k v) k = some v := by
  induction m with
  | nil => simp [mapSet, mapGet]
  | cons p rest ih =>
    obtain ⟨k1, v1⟩ := p
    by_cases hk : k1 = k
    · simp [mapSet, hk, mapGet]
    · simp [mapSet, hk, mapGet, ih]

theorem mapGet_mapSet_ne (m : List (String × α)) (k k1 : String) (v : α)
    (h : k1 ≠ k) : mapGet (mapSet m k v) k1 = mapGet m k1 := by
  induction m with
  | nil =>
    simp only [mapSet, mapGet]
    rw [if_neg (fun hh => h hh.symm)]
  | cons p rest ih =>
    obtain ⟨k2, v2⟩ := p
    by_cases hk : k2 = k
    · subst hk
      simp only [mapSet, if_pos rfl, mapGet]
      rw [if_neg (fun hh => h hh.symm), if_neg (fun hh => h hh.symm)]
    · simp only [mapSet, if_neg hk, mapGet]
      by_cases hk1 : k2 = k1
      · rw [if_pos hk1, if_pos hk1]
      · rw [if_neg hk1, if_neg hk1, ih]

theorem mapGet_eq_none_of_not_mem (m : List (String × α)) (k : String)
    (h : k ∉ m.map Prod.fst) : mapGet m k = none := by
  induction m with
  | nil => rfl
  | cons p rest ih =>
    obtain ⟨k1, v1⟩ := p
    simp only [List.map_cons, List.mem_cons] at h
    push_neg at h
    simp only [mapGet]
    rw [if_neg (fun hh => h.1 hh.symm), ih h.2]

theorem mapSet_absent (m : List (String × α)) (k : String) (v : α)
    (h : mapGet m k = none) : mapSet m k v = m ++ [(k, v)] := by
  induction m with
  | nil => rfl
  | cons p rest ih =>
    obtain ⟨k1, v1⟩ := p
    simp only [mapGet] at h
    by_cases hk : k1 = k
    · rw [if_pos hk] at h
      exact absurd h (by simp)
    · rw [if_neg hk] at h
      simp only [mapSet, if_neg hk, List.cons_append, ih h]

theorem mapGet_append_of_none (m1 m2 : List (String × α)) (k : String)
    (h : mapGet m1 k = none) : mapGet (m1 ++ m2) k = mapGet m2 k := by
  induction m1 with
  | nil => rfl
  | cons p rest ih =>
    obtain ⟨k1, v1⟩ := p
    simp only [mapGet] at h
    by_cases hk : k1 = k
    · rw [if_pos hk] at h
      exact absurd h (by simp)
    · rw [if_neg hk] at h
      simp only [List.cons_append, mapGet, if_neg hk]
      exact ih h

theorem foldl_mapSet_eq_append (m : List (String × α)) (acc : List (String × α))
    (hnodup : (m.map Prod.fst).Nodup)
    (hd : ∀ k, k ∈ m.map Prod.fst → mapGet acc k = none) :
    m.foldl (fun l p => mapSet l p.1 p.2) acc = acc ++ m := by
  induction m generalizing acc with
  | nil => simp
  | cons p rest ih =>
    obtain ⟨k, v⟩ := p
    have hka : mapGet acc k = none := hd k (by simp)
    simp only [List.map_cons, List.nodup_cons] at hnodup
    rw [List.foldl_cons]
    show List.foldl (fun l p => mapSet l p.1 p.2) (mapSet acc k v) rest = acc ++ (k, v) :: rest
    rw [mapSet_absent acc k v hka]
    rw [ih (acc ++ [(k, v)]) hnodup.2 ?_, List.append_assoc]
    · rfl
    · intro k1 hk1
      have hne : k1 ≠ k := fun hh => hnodup.1 (hh ▸ hk1)
      rw [mapGet_append_of_none acc [(k, v)] k1 (hd k1 (by simp [hk1]))]
      simp only [mapGet]
      rw [if_neg (fun hh => hne hh.symm)]

namespace ShadowTransactionCommandBuilder

theorem foldl_register_commandFactories
    (entries : List (String × (TransactionEvent → TransactionCommand)))
    (nb : ShadowTransactionCommandBuilder) :
    (entries.foldl (fun b p => b.registerCommandFactory p.1 p.2) nb).commandFactories =
      entries.foldl (fun l p => mapSet l p.1 p.2) nb.commandFactories := by
  induction entries generalizing nb with
  | nil => rfl
  | cons p rest ih =>
    rw [List.foldl_cons, List.foldl_cons, ih]
    rfl

theorem withPreInvokeHook_eq (b : ShadowTransactionCommandBuilder)
    (hook : PreInvokeHook) (hw : b.WellFormed) :
    b.withPreInvokeHook hook =
      { preInvokeHooks := b.preInvokeHooks ++ [hook],
        postInvokeHooks := b.postInvokeHooks,
        commandFactories := b.commandFactories } := by
  unfold withPreInvokeHook
  have h1 : (b.commandFactories.foldl
      (fun nb p => nb.registerCommandFactory p.1 p.2) empty).commandFactories =
      b.commandFactories := by
    rw [foldl_register_commandFactories]
    have h2 := foldl_mapSet_eq_append b.commandFactories [] hw (fun k _ => rfl)
    simpa [empty] using h2
  show ShadowTransactionCommandBuilder.mk (b.preInvokeHooks ++ [hook]) b.postInvokeHooks
      (b.commandFactories.foldl (fun nb p => nb.registerCommandFactory p.1 p.2)
        empty).commandFactories = _
  rw [h1]

theorem withPostInvokeHook_eq (b : ShadowTransactionCommandBuilder)
    (hook : PostInvokeHook) (hw : b.WellFormed) :
    b.withPostInvokeHook hook =
      { preInvokeHooks := b.preInvokeHooks,
        postInvokeHooks := b.postInvokeHooks ++ [hook],
        commandFactories := b.commandFactories } := by
  unfold withPostInvokeHook
  have h1 : (b.commandFactories.foldl
      (fun nb p => nb.registerCommandFactory p.1 p.2) empty).commandFactories =
      b.commandFactories := by
    rw [foldl_register_commandFactories]
    have h2 := foldl_mapSet_eq_append b.commandFactories [] hw (fun k _ => rfl)
    simpa [empty] using h2
  show ShadowTransactionCommandBuilder.mk b.preInvokeHooks (b.postInvokeHooks ++ [hook])
      (b.commandFactories.foldl (fun nb p => nb.registerCommandFactory p.1 p.2)
        empty).commandFactories = _
  rw [h1]

end ShadowTransactionCommandBuilder

theorem mem_keys_mapSet (m : List (String × α)) (k k1 : String) (v : α)
    (h : k1 ∈ (mapSet m k v).map Prod.fst) : k1 ∈ m.map Prod.fst ∨ k1 = k := by
  induction m with
  | nil =>
    simp only [mapSet, List.map_cons, List.map_nil, List.mem_singleton] at h
    exact Or.inr h
  | cons p rest ih =>
    obtain ⟨k2, v2⟩ := p
    by_cases hk : k2 = k
    · simp only [mapSet, if_pos hk, List.map_cons, List.mem_cons] at h
      rcases h with h | h
      · exact Or.inr h
      · exact Or.inl (by simp [h])
    · simp only [mapSet, if_neg hk, List.map_cons, List.mem_cons] at h
      rcases h with h | h
      · exact Or.inl (by simp [h])
      · rcases ih h with h1 | h1
        · exact Or.inl (by simp [h1])
        · exact Or.inr h1

theorem nodup_keys_mapSet (m : List (String × α)) (k : String) (v : α)
    (h : (m.map Prod.fst).Nodup) : ((mapSet m k v).map Prod.fst).Nodup := by
  induction m with
  | nil => simp [mapSet]
  | cons p rest ih =>
    obtain ⟨k2, v2⟩ := p
    simp only [List.map_cons, List.nodup_cons] at h
    by_cases hk : k2 = k
    · subst hk
      have hms : mapSet ((k2, v2) :: rest) k2 v = (k2, v) :: rest := by
        simp [mapSet]
      rw [hms]
      simp only [List.map_cons, List.nodup_cons]
      exact ⟨h.1, h.2⟩
    · simp only [mapSet, if_neg hk, List.map_cons, List.nodup_cons]
      refine ⟨fun hmem => ?_, ih h.2⟩
      rcases mem_keys_mapSet rest k k2 v hmem with h1 | h1
      · exact h.1 h1
      · exact hk h1

namespace ShadowTransactionCommandBuilder

theorem wellFormed_register (b : ShadowTransactionCommandBuilder) (t : String)
    (f : TransactionEvent → TransactionCommand) (hw : b.WellFormed) :
    (b.registerCommandFactory t f).WellFormed :=
  nodup_keys_mapSet b.commandFactories t f hw

theorem wellFormed_withPre (b : ShadowTransactionCommandBuilder)
    (hook : PreInvokeHook) (hw : b.WellFormed) :
    (b.withPreInvokeHook hook).WellFormed := by
  rw [withPreInvokeHook_eq b hook hw]
  exact hw

theorem wellFormed_withPost (b : ShadowTransactionCommandBuilder)
    (hook : PostInvokeHook) (hw : b.WellFormed) :
    (b.withPostInvokeHook hook).WellFormed := by
  rw [withPostInvokeHook_eq b hook hw]
  exact hw

end ShadowTransactionCommandBuilder

open ShadowTransactionCommandBuilder in
/-- C1: for every builder and every event whose type has a registered factory,
buildCommand returns the wrapped base command; the wrapped command keeps the
base commandId; its invoke is the strict sequential composition of the
pre-hook phase (in registration order), the base invoke, and the post-hook
phase (in registration order), each later phase starting only from the state
the previous phase finished in; and within a phase each hook is awaited to
completion before the next starts, in list order. -/
theorem claim1_buildCommand_runs_phases_in_order
    (b : ShadowTransactionCommandBuilder) (e : TransactionEvent)
    (f : TransactionEvent → TransactionCommand)
    (hf : mapGet b.commandFactories e.type = some f) :
    b.buildCommand e = Except.ok (b.wrapWithHooks (f e)) ∧
    (b.wrapWithHooks (f e)).commandId = (f e).commandId ∧
    (∀ (context : CommandContext) (s : EngineState),
      (b.wrapWithHooks (f e)).invoke context s =
        M.bind (runHooks b.preInvokeHooks (f e) context)
          (fun _ => M.bind ((f e).invoke context)
            (fun _ => runHooks b.postInvokeHooks (f e) context)) s) ∧
    (∀ (hs1 hs2 : List PreInvokeHook) (c : TransactionCommand)
        (context : CommandContext) (s : EngineState),
      runHooks (hs1 ++ hs2) c context s =
        M.bind (runHooks hs1 c context) (fun _ => runHooks hs2 c context) s) ∧
    (∀ (h : PreInvokeHook) (rest : List PreInvokeHook) (c : TransactionCommand)
        (context : CommandContext) (s : EngineState),
      runHooks (h :: rest) c context s =
        M.bind (h c context) (fun _ => runHooks rest c context) s) :=
  ⟨buildCommand_some b e f hf, rfl, fun _ _ => rfl,
   fun hs1 hs2 c context s => runHooks_append hs1 hs2 c context s,
   fun h rest c context s => runHooks_cons h rest c context s⟩

/-- C1 witness: instantiation at the PING builder and event. -/
theorem claim1_witness :
    mapGet pingBuilder.commandFactories pingEvent.type = some (fun _ => pingCommand) ∧
    (pingBuilder.buildCommand pingEvent =
      Except.ok (pingBuilder.wrapWithHooks pingCommand) ∧
     (pingBuilder.wrapWithHooks pingCommand).commandId = pingCommand.commandId ∧
     (∀ (context : CommandContext) (s : EngineState),
        (pingBuilder.wrapWithHooks pingCommand).invoke context s =
          M.bind (ShadowTransactionCommandBuilder.runHooks
              pingBuilder.preInvokeHooks pingCommand context)
            (fun _ => M.bind (pingCommand.invoke context)
              (fun _ => ShadowTransactionCommandBuilder.runHooks
                  pingBuilder.postInvokeHooks pingCommand context)) s) ∧
     (∀ (hs1 hs2 : List PreInvokeHook) (c : TransactionCommand)
         (context : CommandContext) (s : EngineState),
       ShadowTransactionCommandBuilder.runHooks (hs1 ++ hs2) c context s =
         M.bind (ShadowTransactionCommandBuilder.runHooks hs1 c context)
           (fun _ => ShadowTransactionCommandBuilder.runHooks hs2 c context) s) ∧
     (∀ (h : PreInvokeHook) (rest : List PreInvokeHook) (c : TransactionCommand)
         (context : CommandContext) (s : EngineState),
       ShadowTransactionCommandBuilder.runHooks (h :: rest) c context s =
         M.bind (h c context) (fun _ => ShadowTransactionCommandBuilder.runHooks
             rest c context) s)) :=
  ⟨rfl, claim1_buildCommand_runs_phases_in_order pingBuilder pingEvent
    (fun _ => pingCommand) rfl⟩

open ShadowTransactionCommandBuilder in
/-- C2: for a decorated command built by buildCommand, a throw anywhere stops
the rest of the pipeline: a hook failing inside a phase leaves the rest of
that phase unrun (the run of the extended list is exactly the failing
prefix run), a failing pre-hook phase makes the decorated invoke reject with
that same error and state (so the core invoke and the post-hooks contribute
nothing), a failing core invoke skips the post-hooks, a failing post-hook
phase rejects with its error, and in each case the same error is what the
decorated invoke returns to its caller. -/
theorem claim2_failure_stops_pipeline
    (b : ShadowTransactionCommandBuilder) (e : TransactionEvent)
    (f : TransactionEvent → TransactionCommand)
    (hf : mapGet b.commandFactories e.type = some f) :
    b.buildCommand e = Except.ok (b.wrapWithHooks (f e)) ∧
    (∀ (hs1 hs2 : List PreInvokeHook) (c : TransactionCommand)
        (context : CommandContext) (s s1 : EngineState) (msg : String),
      runHooks hs1 c context s = Res.err msg s1 →
      runHooks (hs1 ++ hs2) c context s = Res.err msg s1) ∧
    (∀ (context : CommandContext) (s s1 : EngineState) (msg : String),
      runHooks b.preInvokeHooks (f e) context s = Res.err msg s1 →
      (b.wrapWithHooks (f e)).invoke context s = Res.err msg s1) ∧
    (∀ (context : CommandContext) (s s1 s2 : EngineState) (u : Unit) (msg : String),
      runHooks b.preInvokeHooks (f e) context s = Res.ok u s1 →
      (f e).invoke context s1 = Res.err msg s2 →
      (b.wrapWithHooks (f e)).invoke context s = Res.err msg s2) ∧
    (∀ (context : CommandContext) (s s1 s2 s3 : EngineState) (u v : Unit) (msg : String),
      runHooks b.preInvokeHooks (f e) context s = Res.ok u s1 →
      (f e).invoke context s1 = Res.ok v s2 →
      runHooks b.postInvokeHooks (f e) context s2 = Res.err msg s3 →
      (b.wrapWithHooks (f e)).invoke context s = Res.err msg s3) :=
  ⟨buildCommand_some b e f hf,
   fun hs1 hs2 c context s s1 msg h => runHooks_prefix_err hs1 hs2 c context s s1 msg h,
   fun context s s1 msg h => wrap_invoke_pre_err b (f e) context s s1 msg h,
   fun context s s1 s2 u msg h1 h2 => wrap_invoke_core_err b (f e) context s s1 s2 u msg h1 h2,
   fun context s s1 s2 s3 u v msg h1 h2 h3 =>
     wrap_invoke_post_err b (f e) context s s1 s2 s3 u v msg h1 h2 h3⟩

/-- C2 witness: the throwing-hook builder over the PING factory; its pre-hook
rejects and the decorated invoke rejects with the same error before the core
command or any later hook contributes. -/
theorem claim2_witness :
    mapGet throwBuilder.commandFactories pingEvent.type = some (fun _ => pingCommand) ∧
    ((throwBuilder.wrapWithHooks pingCommand).invoke { event := pingEvent } s0 =
      Res.err ("denied") s0) :=
  ⟨rfl,
   (claim2_failure_stops_pipeline throwBuilder pingEvent (fun _ => pingCommand)
      rfl).2.2.1 { event := pingEvent } s0 s0 ("denied") rfl⟩

/-- C3: the mediator never throws to its caller: for every manager, event and
starting world, processEvent resolves normally; both a buildCommand failure
and a rejected decorated invoke are routed into handleError and swallowed. -/
theorem claim3_processEvent_never_throws
    (mgr : DefaultTransactionManager) (event : TransactionEvent) (s : EngineState) :
    ∃ s1, mgr.processEvent event s = Res.ok () s1 := by
  unfold DefaultTransactionManager.processEvent
  cases hb : mgr.commandBuilder.buildCommand event with
  | error e => exact ⟨_, rfl⟩
  | ok command =>
    cases hi : command.invoke { event := event } { s with scratch := [] } with
    | ok a s1 =>
      refine ⟨s1, ?_⟩
      simp only [hi]
    | err e s1 =>
      exact ⟨_, by simp only [hi]; rfl⟩

open ShadowTransactionCommandBuilder in
/-- C4: adding a hook returns a new builder whose factory map equals the
receiver's (re-registered entry by entry) and whose corresponding hook list
is the receiver's with the hook appended, the other list unchanged; the
operations preserve well-formedness; and two builders derived from a common
ancestor by different hook additions never observe each other's hooks: a
hook absent from the ancestor and different from the one added is absent
from the derived builder. The receiver itself is a pure value, so commands
built from it before and after the call are the same commands. -/
theorem claim4_builder_immutability
    (b : ShadowTransactionCommandBuilder) (h1 h2 : PreInvokeHook)
    (hw : b.WellFormed) :
    b.withPreInvokeHook h1 =
      { preInvokeHooks := b.preInvokeHooks ++ [h1],
        postInvokeHooks := b.postInvokeHooks,
        commandFactories := b.commandFactories } ∧
    b.withPostInvokeHook h1 =
      { preInvokeHooks := b.preInvokeHooks,
        postInvokeHooks := b.postInvokeHooks ++ [h1],
        commandFactories := b.commandFactories } ∧
    (b.withPreInvokeHook h1).WellFormed ∧
    (b.withPostInvokeHook h1).WellFormed ∧
    (b.withPreInvokeHook h2).preInvokeHooks = b.preInvokeHooks ++ [h2] ∧
    (h2 ∉ b.preInvokeHooks → h2 ≠ h1 →
      h2 ∉ (b.withPreInvokeHook h1).preInvokeHooks) ∧
    (h2 ∉ b.postInvokeHooks → h2 ≠ h1 →
      h2 ∉ (b.withPostInvokeHook h1).postInvokeHooks) := by
  refine ⟨withPreInvokeHook_eq b h1 hw, withPostInvokeHook_eq b h1 hw,
    wellFormed_withPre b h1 hw, wellFormed_withPost b h1 hw, ?_, ?_, ?_⟩
  · rw [withPreInvokeHook_eq b h2 hw]
  · intro hmem hne
    rw [withPreInvokeHook_eq b h1 hw]
    simp only [List.mem_append, List.mem_singleton]
    rintro (h | h)
    · exact hmem h
    · exact hne h
  · intro hmem hne
    rw [withPostInvokeHook_eq b h1 hw]
    simp only [List.mem_append, List.mem_singleton]
    rintro (h | h)
    · exact hmem h
    · exact hne h

/-- C4 witness: instantiation at the well-formed PING builder with two marker
hooks. -/
theorem claim4_witness :
    pingBuilder.WellFormed ∧
    pingBuilder.withPreInvokeHook (markerHook ("a")) =
      { preInvokeHooks := pingBuilder.preInvokeHooks ++ [markerHook ("a")],
        postInvokeHooks := pingBuilder.postInvokeHooks,
        commandFactories := pingBuilder.commandFactories } :=
  ⟨by simp [ShadowTransactionCommandBuilder.WellFormed, pingBuilder,
      ShadowTransactionCommandBuilder.empty,
      ShadowTransactionCommandBuilder.registerCommandFactory, mapSet],
   (claim4_builder_immutability pingBuilder (markerHook ("a")) (markerHook ("b"))
      (by simp [ShadowTransactionCommandBuilder.WellFormed, pingBuilder,
        ShadowTransactionCommandBuilder.empty,
        ShadowTransactionCommandBuilder.registerCommandFactory, mapSet])).1⟩

open ShadowTransactionCommandBuilder in
/-- C6: for an event type with no registered factory, buildCommand fails with
the no-factory-registered error (a pure lookup failure: no hook can have run
and nothing is appended anywhere), and processEvent routes the failure
straight into handleError: the resulting world is the starting one with only
the diagnostic line appended, the collector and the scratch state untouched
and no command context ever built. -/
theorem claim6_missing_factory
    (mgr : DefaultTransactionManager) (e : TransactionEvent) (s : EngineState)
    (hf : mapGet mgr.commandBuilder.commandFactories e.type = none) :
    mgr.commandBuilder.buildCommand e =
      Except.error ("No command factory registered for event type: " ++ e.type) ∧
    mgr.processEvent e s =
      mgr.handleError e ("No command factory registered for event type: " ++ e.type) s ∧
    (Res.state (mgr.processEvent e s)).collected = s.collected ∧
    (Res.state (mgr.processEvent e s)).scratch = s.scratch := by
  have hb := buildCommand_none mgr.commandBuilder e hf
  have hp : mgr.processEvent e s =
      mgr.handleError e ("No command factory registered for event type: " ++ e.type) s := by
    unfold DefaultTransactionManager.processEvent
    rw [hb]
  refine ⟨hb, hp, ?_, ?_⟩ <;>
    simp [hp, DefaultTransactionManager.handleError, consoleError, Res.state]

/-- C6 witness: the empty-builder mediator on the PING event. -/
theorem claim6_witness :
    mapGet emptyManager.commandBuilder.commandFactories pingEvent.type = none ∧
    emptyManager.commandBuilder.buildCommand pingEvent =
      Except.error ("No command factory registered for event type: " ++ pingEvent.type) ∧
    (Res.state (emptyManager.processEvent pingEvent s0)).collected = s0.collected :=
  ⟨rfl,
   (claim6_missing_factory emptyManager pingEvent s0 rfl).1,
   (claim6_missing_factory emptyManager pingEvent s0 rfl).2.2.1⟩

/-- C8: the collector contract: addEvent resolves and appends its event at
the tail of the sequence leaving everything else about the collector's order
intact; getEvents resolves with the full sequence in insertion order without
changing the world; two getEvents calls with nothing in between return equal
sequences; and clear followed by getEvents yields the empty sequence. -/
theorem claim8_collector_contract :
    (∀ (e : TransactionEvent) (s : EngineState), ∃ s1,
      FifoEventCollector.addEvent e s = Res.ok () s1 ∧
      s1.collected = s.collected ++ [e]) ∧
    (∀ s : EngineState, FifoEventCollector.getEvents s = Res.ok s.collected s) ∧
    (∀ (s s1 s2 : EngineState) (l1 l2 : List TransactionEvent),
      FifoEventCollector.getEvents s = Res.ok l1 s1 →
      FifoEventCollector.getEvents s1 = Res.ok l2 s2 → l1 = l2) ∧
    (∀ s : EngineState, ∃ s1,
      FifoEventCollector.clear s = Res.ok () s1 ∧
      FifoEventCollector.getEvents s1 = Res.ok [] s1) := by
  refine ⟨fun e s => ⟨_, rfl, rfl⟩, fun s => rfl, ?_, fun s => ⟨_, rfl, rfl⟩⟩
  intro s s1 s2 l1 l2 hg1 hg2
  simp only [FifoEventCollector.getEvents, Res.ok.injEq] at hg1 hg2
  rw [← hg1.1, ← hg2.1, ← hg1.2]

/-- C8 witness: instantiation at the quiescent world and the PONG event. -/
theorem claim8_witness :
    (∃ s1, FifoEventCollector.addEvent pongEvent s0 = Res.ok () s1 ∧
      s1.collected = s0.collected ++ [pongEvent]) ∧
    ([] : List TransactionEvent) = [] :=
  ⟨claim8_collector_contract.1 pongEvent s0,
   claim8_collector_contract.2.2.1 s0 s0 s0 [] [] rfl rfl⟩

open ShadowTransactionCommandBuilder in
/-- C9: registering factory f1 and then factory f2 for the same event type
leaves f2 as the one looked up for that type (overwrite, not additive),
leaves lookups for every other type exactly as they were, and a subsequent
buildCommand on an event of that type builds and wraps the f2 command. -/
theorem claim9_last_registration_wins
    (b : ShadowTransactionCommandBuilder) (t : String)
    (f1 f2 : TransactionEvent → TransactionCommand) (e : TransactionEvent)
    (ht : e.type = t) :
    mapGet ((b.registerCommandFactory t f1).registerCommandFactory t f2).commandFactories
      t = some f2 ∧
    (∀ k, k ≠ t →
      mapGet ((b.registerCommandFactory t f1).registerCommandFactory t f2).commandFactories
        k = mapGet b.commandFactories k) ∧
    ((b.registerCommandFactory t f1).registerCommandFactory t f2).buildCommand e =
      Except.ok
        (((b.registerCommandFactory t f1).registerCommandFactory t f2).wrapWithHooks
          (f2 e)) := by
  refine ⟨mapGet_mapSet_self _ t f2, ?_, ?_⟩
  · intro k hk
    show mapGet (mapSet (mapSet b.commandFactories t f1) t f2) k = _
    rw [mapGet_mapSet_ne _ t k f2 hk, mapGet_mapSet_ne _ t k f1 hk]
  · apply buildCommand_some
    rw [ht]
    exact mapGet_mapSet_self _ t f2

/-- C9 witness: registering the ping factory then the boom factory for PING
makes buildCommand use the boom factory. -/
theorem claim9_witness :
    pingEvent.type = "PING" ∧
    mapGet ((ShadowTransactionCommandBuilder.empty.registerCommandFactory
        ("PING") (fun _ => pingCommand)).registerCommandFactory
        ("PING") (fun _ => boomCommand)).commandFactories ("PING") =
      some (fun _ => boomCommand) :=
  ⟨rfl,
   (claim9_last_registration_wins ShadowTransactionCommandBuilder.empty ("PING")
      (fun _ => pingCommand) (fun _ => boomCommand) pingEvent rfl).1⟩

open ShadowTransactionCommandBuilder in
/-- C10: every hook run by a decorated command receives the undecorated base
command built by the factory as its first argument: the decorated invoke is
the phase composition with the factory command itself passed to runHooks for
both phases, the decorated commandId is the base commandId a hook observes
on that argument, and for a builder whose single pre-hook invokes its first
argument the decorated run is exactly two back-to-back runs of the bare core
logic with no hooks around either. -/
theorem claim10_hooks_receive_base_command
    (b : ShadowTransactionCommandBuilder) (e : TransactionEvent)
    (f : TransactionEvent → TransactionCommand)
    (hf : mapGet b.commandFactories e.type = some f) :
    (∀ cmd, b.buildCommand e = Except.ok cmd →
      cmd.commandId = (f e).commandId ∧
      (∀ (context : CommandContext) (s : EngineState),
        cmd.invoke context s =
          M.bind (runHooks b.preInvokeHooks (f e) context)
            (fun _ => M.bind ((f e).invoke context)
              (fun _ => runHooks b.postInvokeHooks (f e) context)) s)) ∧
    (∀ (bb : ShadowTransactionCommandBuilder),
      bb.preInvokeHooks = [invokeArgHook] → bb.postInvokeHooks = [] →
      ∀ (context : CommandContext) (s : EngineState),
        (bb.wrapWithHooks (f e)).invoke context s =
          M.bind ((f e).invoke context) (fun _ => (f e).invoke context) s) := by
  constructor
  · intro cmd hcmd
    rw [buildCommand_some b e f hf] at hcmd
    injection hcmd with hcmd
    subst hcmd
    exact ⟨rfl, fun _ _ => rfl⟩
  · intro bb hpre hpost context s
    rw [wrap_invoke_eq, hpre, hpost]
    cases h1 : (f e).invoke context s with
    | err msg s1 => simp [runHooks, invokeArgHook, M.bind, M.pure, h1]
    | ok u s1 =>
      cases h2 : (f e).invoke context s1 with
      | err msg s2 => simp [runHooks, invokeArgHook, M.bind, M.pure, h1, h2]
      | ok v s2 => simp [runHooks, invokeArgHook, M.bind, M.pure, h1, h2]

/-- C10 witness: with the single self-invoking pre-hook over the PING
factory command, the decorated run is the core run twice. -/
theorem claim10_witness :
    (({ preInvokeHooks := [invokeArgHook], postInvokeHooks := [],
        commandFactories := [] } :
      ShadowTransactionCommandBuilder).wrapWithHooks pingCommand).invoke
        { event := pingEvent } s0 =
      M.bind (pingCommand.invoke { event := pingEvent })
        (fun _ => pingCommand.invoke { event := pingEvent }) s0 :=
  (claim10_hooks_receive_base_command pingBuilder pingEvent (fun _ => pingCommand)
    rfl).2
    { preInvokeHooks := [invokeArgHook], postInvokeHooks := [], commandFactories := [] }
    rfl rfl { event := pingEvent } s0

/-- C5 counterexample: processing of the BOOM event fails (its decorated
invoke rejects with the boom error), yet after processEvent returns, the
collector holds the side-effect event the command appended before throwing:
a failed event can leave side-effect events in the collector. -/
theorem claim5_counterexample :
    (boomManager.processEvent boomEvent s0).isOk = true ∧
    (Res.state (boomManager.processEvent boomEvent s0)).collected = [pongEvent] ∧
    ((boomBuilder.wrapWithHooks boomCommand).invoke { event := boomEvent }
        { s0 with scratch := [] }).isOk = false :=
  ⟨rfl, rfl, rfl⟩

open ShadowTransactionCommandBuilder in
/-- C5 amended: a failure never rolls the collector back; after processEvent
the collector holds exactly what the steps that ran had appended. A
no-factory failure leaves the collector unchanged; a rejected decorated
invoke leaves the collector exactly as the failed run left it (handleError
appends nothing); in particular a failure during the pre-hook phase leaves
the collector as the pre-hook phase left it, so the core command and the
post-hooks contribute nothing. -/
theorem claim5_amended_no_rollback
    (mgr : DefaultTransactionManager) (e : TransactionEvent) (s : EngineState) :
    (mapGet mgr.commandBuilder.commandFactories e.type = none →
      (Res.state (mgr.processEvent e s)).collected = s.collected) ∧
    (∀ (f : TransactionEvent → TransactionCommand) (msg : String) (s1 : EngineState),
      mapGet mgr.commandBuilder.commandFactories e.type = some f →
      (mgr.commandBuilder.wrapWithHooks (f e)).invoke { event := e }
          { s with scratch := [] } = Res.err msg s1 →
      mgr.processEvent e s = Res.ok () (Res.state (mgr.handleError e msg s1)) ∧
      (Res.state (mgr.processEvent e s)).collected = s1.collected) ∧
    (∀ (f : TransactionEvent → TransactionCommand) (msg : String) (s1 : EngineState),
      mapGet mgr.commandBuilder.commandFactories e.type = some f →
      runHooks mgr.commandBuilder.preInvokeHooks (f e) { event := e }
          { s with scratch := [] } = Res.err msg s1 →
      (Res.state (mgr.processEvent e s)).collected = s1.collected) := by
  have key : ∀ (f : TransactionEvent → TransactionCommand) (msg : String)
      (s1 : EngineState),
      mapGet mgr.commandBuilder.commandFactories e.type = some f →
      (mgr.commandBuilder.wrapWithHooks (f e)).invoke { event := e }
          { s with scratch := [] } = Res.err msg s1 →
      mgr.processEvent e s = Res.ok () (Res.state (mgr.handleError e msg s1)) ∧
      (Res.state (mgr.processEvent e s)).collected = s1.collected := by
    intro f msg s1 hf hinv
    have hb := buildCommand_some mgr.commandBuilder e f hf
    have hp : mgr.processEvent e s = mgr.handleError e msg s1 := by
      unfold DefaultTransactionManager.processEvent
      rw [hb]
      simp only [hinv]
    refine ⟨?_, ?_⟩
    · rw [hp]; rfl
    · rw [hp]; rfl
  refine ⟨?_, key, ?_⟩
  · intro hf
    have hb := buildCommand_none mgr.commandBuilder e hf
    have hp : mgr.processEvent e s =
        mgr.handleError e ("No command factory registered for event type: " ++ e.type) s := by
      unfold DefaultTransactionManager.processEvent
      rw [hb]
    rw [hp]; rfl
  · intro f msg s1 hf hpre
    exact (key f msg s1 hf
      (wrap_invoke_pre_err mgr.commandBuilder (f e) { event := e }
        { s with scratch := [] } s1 msg hpre)).2

/-- C5 amended witness: the throwing-hook builder on the PING event; the
failed pre-hook phase leaves the collector as it found it. -/
theorem claim5_witness :
    mapGet throwManager.commandBuilder.commandFactories pingEvent.type =
      some (fun _ => pingCommand) ∧
    ShadowTransactionCommandBuilder.runHooks
        throwManager.commandBuilder.preInvokeHooks pingCommand
        { event := pingEvent } { s0 with scratch := [] } =
      Res.err ("denied") { s0 with scratch := [] } ∧
    (Res.state (throwManager.processEvent pingEvent s0)).collected =
      ({ s0 with scratch := ([] : List (String × String)) } : EngineState).collected :=
  ⟨rfl, rfl,
   (claim5_amended_no_rollback throwManager pingEvent s0).2.2
     (fun _ => pingCommand) ("denied") { s0 with scratch := [] } rfl rfl⟩

/-- C7: for every event E handled by the repository commands and every event
added to the collector during that run, the added event carries the
correlationId of E unchanged and its causationId equals the id of E: any
event in the collector after a run of MatchStoreToProductCommand or
AssignRepCommand on E either was already there or has correlationId equal
to E.metadata.correlationId and causationId equal to E.id. -/
theorem claim7_correlation_propagation
    (E : TransactionEvent) (rand : String) (context : CommandContext)
    (s : EngineState) (e1 : TransactionEvent) :
    (e1 ∈ (Res.state ((MatchStoreToProductCommand rand E).invoke context s)).collected →
      e1 ∈ s.collected ∨
        (e1.metadata.correlationId = E.metadata.correlationId ∧
         e1.metadata.causationId = E.id)) ∧
    (e1 ∈ (Res.state ((AssignRepCommand rand E).invoke context s)).collected →
      e1 ∈ s.collected ∨
        (e1.metadata.correlationId = E.metadata.correlationId ∧
         e1.metadata.causationId = E.id)) := by
  obtain ⟨eid, ety, epayload, emeta⟩ := E
  constructor
  · intro hmem
    cases epayload with
    | storeProducts storeId productList =>
      simp only [MatchStoreToProductCommand, M.bind, M.pure, consoleLog, genFresh,
        currentTime, FifoEventCollector.addEvent, Res.state, List.mem_append,
        List.mem_singleton] at hmem
      rcases hmem with h | h
      · exact Or.inl h
      · subst h
        exact Or.inr ⟨rfl, rfl⟩
    | storeMatched m st pr rev status =>
      simp only [MatchStoreToProductCommand, M.throw, Res.state] at hmem
      exact Or.inl hmem
    | matchAssign m st rev =>
      simp only [MatchStoreToProductCommand, M.throw, Res.state] at hmem
      exact Or.inl hmem
    | repAssigned m st rep comm fd =>
      simp only [MatchStoreToProductCommand, M.throw, Res.state] at hmem
      exact Or.inl hmem
    | raw str =>
      simp only [MatchStoreToProductCommand, M.throw, Res.state] at hmem
      exact Or.inl hmem
  · intro hmem
    simp only [AssignRepCommand, M.bind, M.pure, consoleLog, genFresh, currentTime,
      FifoEventCollector.addEvent, Res.state, List.mem_append,
      List.mem_singleton] at hmem
    rcases hmem with h | h
    · exact Or.inl h
    · subst h
      exact Or.inr ⟨rfl, rfl⟩

/-- C7 witness: the match command on the concrete MATCH_STORE event publishes
matchSideEffect, whose correlationId and causationId are those required. -/
theorem claim7_witness :
    matchSideEffect ∈
      (Res.state ((MatchStoreToProductCommand ("x") matchEvent).invoke
        { event := matchEvent } s0)).collected ∧
    (matchSideEffect ∈ s0.collected ∨
      (matchSideEffect.metadata.correlationId = matchEvent.metadata.correlationId ∧
       matchSideEffect.metadata.causationId = matchEvent.id)) :=
  ⟨by decide,
   (claim7_correlation_propagation matchEvent ("x") { event := matchEvent } s0
      matchSideEffect).1 (by decide)⟩
